import Mathlib

/-!
Verification of the Telegram group-parsing pipeline (tg_bot).

Texts are modelled as lists of characters (`Str`), numeric similarity scores as
rationals, with the numeric library routines `log` and `sqrt` (used by sklearn
through floating point) passed in as explicit oracle functions `lg`/`sq`.
Database writes are modelled as an explicit effect list; the surrounding
SQLAlchemy session machinery only executes an effect when the corresponding
`async def` is actually awaited by the caller.
-/

namespace TgBot

/-- Message and keyword texts, modelled as lists of characters. -/
abbrev Str := List Char

/-! ### Tokenization and tf-idf similarity (operations.py, check_duplicate) -/

/-- A word character for sklearn's default token pattern `\b\w\w+\b`
(ASCII approximation of `\w`). -/
def isWordChar (c : Char) : Bool := c.isAlphanum || c = '_'

/-- sklearn `CountVectorizer` default analyzer: lowercase the text, then take
the maximal runs of word characters of length at least two as tokens. -/
def tokens (s : Str) : List Str :=
  ((s.map Char.toLower).splitOnP (fun c => !isWordChar c)).filter (fun t => 2 ≤ t.length)

/-- Term frequency: number of occurrences of term `t` in document `d`. -/
def tf (d : List Str) (t : Str) : ℚ := (d.count t : ℚ)

/-- The fitted vocabulary for the two-document corpus `[a, b]`. -/
def vocab (a b : List Str) : List Str := (a ++ b).dedup

/-- Document frequency of term `t` in the two-document corpus `[a, b]`. -/
def df2 (a b : List Str) (t : Str) : ℚ :=
  (if t ∈ a then 1 else 0) + (if t ∈ b then 1 else 0)

/-- sklearn smooth idf for a corpus of 2 documents: `ln((1+2)/(1+df)) + 1`,
with the floating-point natural log passed in as the oracle `lg`. -/
def idf (lg : ℚ → ℚ) (a b : List Str) (t : Str) : ℚ :=
  lg (3 / (1 + df2 a b t)) + 1

/-- Entry of the (unnormalized) tf-idf vector of document `d` at term `t`.
sklearn additionally L2-normalizes each row, which leaves the cosine
similarity below unchanged. -/
def tfidfEntry (lg : ℚ → ℚ) (a b d : List Str) (t : Str) : ℚ :=
  tf d t * idf lg a b t

/-- Dot product of the tf-idf vectors of documents `d` and `e` over the
vocabulary of the corpus `[a, b]`. -/
def dotAB (lg : ℚ → ℚ) (a b d e : List Str) : ℚ :=
  ((vocab a b).map (fun t => tfidfEntry lg a b d t * tfidfEntry lg a b e t)).sum

/-- Cosine similarity of the two tf-idf rows, with the floating-point square
root passed in as the oracle `sq`; a zero-norm row yields similarity 0,
matching sklearn's `cosine_similarity` on a zero vector. -/
def cosSim (lg sq : ℚ → ℚ) (a b : List Str) : ℚ :=
  let na := sq (dotAB lg a b a a)
  let nb := sq (dotAB lg a b b b)
  if na = 0 ∨ nb = 0 then 0 else dotAB lg a b a b / (na * nb)

/-- `TfidfVectorizer().fit_transform([x, y])` followed by `cosine_similarity`:
raises (`.error`) exactly when the corpus has an empty vocabulary
("empty vocabulary" ValueError), otherwise returns the similarity score. -/
def pairSimilarity (lg sq : ℚ → ℚ) (x y : Str) : Except Unit ℚ :=
  if vocab (tokens x) (tokens y) = [] then .error ()
  else .ok (cosSim lg sq (tokens x) (tokens y))

/-- The opening sequence of the attribution anchor tag. -/
def anchorPat : Str := ['<', 'a', ' ', 'h', 'r', 'e', 'f', '=', '"']

/-- `s.split('<a href="')[0]`: the part of `s` before the first occurrence of
the anchor-tag opening sequence (all of `s` when it does not occur). -/
def takeBefore (pat : Str) : Str → Str
  | [] => []
  | c :: rest =>
    if pat.isPrefixOf (c :: rest) then [] else c :: takeBefore pat rest

/-- `bs(text.split('<a href="')[0], "html.parser").text`: drop everything from
the first anchor tag on, then extract plain text via BeautifulSoup, the
latter supplied as the external oracle `htmlText`. -/
def strip (htmlText : Str → Str) (s : Str) : Str :=
  htmlText (takeBefore anchorPat s)

/-- The comparison loop of `check_duplicate`: for each stored text, strip it
and score it against the (already stripped) candidate; return `false`
("duplicate found") as soon as a score reaches the threshold `θ`, propagate
the first scoring exception, and return `true` when the list is exhausted. -/
def dupScan (θ : ℚ) (lg sq : ℚ → ℚ) (htmlText : Str → Str) (cand : Str) :
    List Str → Except Unit Bool
  | [] => .ok true
  | s :: rest =>
    match pairSimilarity lg sq cand (strip htmlText s) with
    | .error e => .error e
    | .ok sim => if θ ≤ sim then .ok false else dupScan θ lg sq htmlText cand rest

/-- Texts of the stored messages whose `created_at` lies after `yesterday`
(the trailing 24-hour window used by the duplicate query). -/
def recentTexts (yesterday : Int) (msgs : List (Int × Str)) : List Str :=
  (msgs.filter (fun p => yesterday < p.1)).map (fun p => p.2)

/-- The body of `check_duplicate(text)` from operations.py — the undecorated
computation; the `@alru_cache(ttl=300)` decorator that wraps it is
modelled by `check_duplicate_cached` below. Returns `true` for empty
text; otherwise strips the candidate and scans the trailing-window texts;
any exception from the scan is caught and answered with `true`. Note the
convention: `false` means "a near-duplicate was found" (the caller skips
the message exactly when the result is `false`). -/
def check_duplicate (θ : ℚ) (lg sq : ℚ → ℚ) (htmlText : Str → Str)
    (yesterday : Int) (msgs : List (Int × Str)) (text : Str) : Bool :=
  if text = [] then true
  else
    match dupScan θ lg sq htmlText (strip htmlText text) (recentTexts yesterday msgs) with
    | .ok b => b
    | .error _ => true

/-! ### Data model (models.py, pyrogram message objects) -/

/-- The pyrogram user attached to a message (`message.from_user`). -/
structure User where
  id : Int
  username : Option Str
deriving DecidableEq

/-- The fields of a pyrogram `Message` that the parser reads. -/
structure Msg where
  id : Nat
  text : Str
  chat_id : Int
  chat_title : Str
  link : Str
  from_user : Option User
  date : Nat
deriving DecidableEq

/-- A `keywords` row joined with its category (`Keyword.category.id`). -/
structure Keyword where
  keyword : Str
  category_id : Int
deriving DecidableEq

/-- The `telegram_links` row (fields the parser reads or writes; timestamps
are abstract instants). -/
structure TelegramLink where
  id : Str
  link : Option Str
  chat_id : Option Int
  last_check_at : Option Nat
  last_message_id : Option Nat
  invalid : Option Bool
  parser_account : Option Str
deriving DecidableEq

/-- An awaited database side effect. A called-but-not-awaited `async def`
produces no element of this type. -/
inductive Eff
  /-- `session.merge(telegram_link)` + commit: upsert the whole row snapshot. -/
  | mergeLink (snap : TelegramLink)
  /-- `save_message(...)`: insert a message row plus its category links. -/
  | saveMessage (text : Str) (date : Nat) (categories : Finset Int)
      (from_user_id : Option Int) (from_username : Option Str)
      (chat_id : Int) (link : Str)
  /-- `client.join_chat(link)`. -/
  | joinChat (link : Str)
  /-- `asyncio.sleep(secs)` (the FloodWait backoff; the random pacing sleeps
  between messages are omitted as they carry no data). -/
  | sleep (secs : Nat)
  /-- `update_telegram_link_last_check(...)`: set `last_check_at` and
  `last_message_id` of the row with this id. -/
  | updateLastCheck (linkId : Str) (checkedAt : Nat) (last_message_id : Nat)
deriving DecidableEq

/-! ### helpers.py -/

/-- Python's `pat in s` on strings: `pat` occurs as a contiguous substring of
`s` (the empty pattern always occurs). -/
def substrOf (pat : Str) : Str → Bool
  | [] => decide (pat = [])
  | c :: rest => pat.isPrefixOf (c :: rest) || substrOf pat rest

/-- `find_message_categories(text, telegram_link)`: `keyword_rows` is the list
of keywords applicable to the source (explicitly scoped or global, as
produced by `get_keyword_rows`). The message text is lower-cased; the
keyword text is used as stored, and matches by substring containment. -/
def find_message_categories (text : Str) (keyword_rows : List Keyword) : Finset Int :=
  if text = [] then ∅
  else
    ((keyword_rows.filter
        (fun k => substrOf k.keyword (text.map Char.toLower))).map
      (fun k => k.category_id)).toFinset

/-- What `extract_chat` returns: an invite link passed through, a bare public
handle, or a previously bound numeric chat id. -/
inductive ChatRef
  | invite (l : Str)
  | handle (h : Str)
  | chatId (c : Int)
deriving DecidableEq

/-- `"t.me/+"` as a character list. -/
def tmePlus : Str := ['t', '.', 'm', 'e', '/', '+']

/-- `"t.me/"` as a character list. -/
def tme : Str := ['t', '.', 'm', 'e', '/']

/-- `extract_chat(telegram_link)` from helpers.py (`None`/empty link is falsy;
`removeprefix("t.me/")` drops the five-character prefix). -/
def extract_chat (tl : TelegramLink) : Option ChatRef :=
  match tl.link with
  | none => none
  | some l =>
    if l = [] then none
    else if tmePlus.isPrefixOf l then some (.invite l)
    else if tme.isPrefixOf l then some (.handle (l.drop 5))
    else
      match tl.chat_id with
      | some c => some (.chatId c)
      | none => none

/-- The guard `if message.from_user and message.from_user.username:` in
`get_text_with_link` (Python truthiness: a missing user, a missing
username, and an empty username are all falsy). -/
def hasPublicUsername (m : Msg) : Bool :=
  match m.from_user with
  | some u =>
    match u.username with
    | some un => un ≠ []
    | none => false
  | none => false

/-- The username appended by the attribution line (only read when
`hasPublicUsername` holds). -/
def usernameStr (m : Msg) : Str :=
  match m.from_user with
  | some u => u.username.getD []
  | none => []

/-- `get_text_with_link(message)` from helpers.py: the original text, an
appended anchor line with the permalink and chat title, and, when the
author has a public username, an attribution line with the handle. -/
def get_text_with_link (m : Msg) : Str :=
  let base :=
    m.text ++ "\n\n<a href=\"".data ++ m.link ++ "\">Переслано из ".data
      ++ m.chat_title ++ "</a>".data
  if hasPublicUsername m then base ++ "\n\n👉 @".data ++ usernameStr m
  else base

/-! ### operations.py: source-row writes and the scheduler query -/

/-- `save_chat_id(telegram_link, chat_id, session_name)`: a no-op when the
in-memory `chat_id` is truthy (non-null and non-zero); otherwise binds the
chat id, sets the owning account, and merges the whole row. Returns the
mutated in-memory object and the awaited effects. -/
def save_chat_id (tl : TelegramLink) (cid : Int) (session : Option Str) :
    TelegramLink × List Eff :=
  if tl.chat_id.getD 0 ≠ 0 then (tl, [])
  else
    let tl' := { tl with chat_id := some cid, parser_account := session }
    (tl', [.mergeLink tl'])

/-- The coroutine built by calling the `async def`
`update_telegram_link_last_check(telegram_link, last_check_at,
last_message_id)`; awaiting it would emit this effect. -/
def update_telegram_link_last_check (tl : TelegramLink) (checkedAt : Nat)
    (lastMessageId : Nat) : Eff :=
  .updateLastCheck tl.id checkedAt lastMessageId

/-- The `ORDER BY` key of the scheduler query in `get_tg_links`:
`case(last_check_at IS NULL → 1, else 0)` ascending, then
`last_check_at` ascending. -/
def sqlKey (l : TelegramLink) : Nat × Nat :=
  (if l.last_check_at = none then 1 else 0, l.last_check_at.getD 0)

/-- Lexicographic comparison on `sqlKey` (the SQL sort order). -/
def sqlLe (a b : TelegramLink) : Prop :=
  (sqlKey a).1 < (sqlKey b).1 ∨
    ((sqlKey a).1 = (sqlKey b).1 ∧ (sqlKey a).2 ≤ (sqlKey b).2)

instance : DecidableRel sqlLe := fun a b => by
  unfold sqlLe
  infer_instance

instance : IsTotal TelegramLink sqlLe :=
  ⟨fun a b => by
    unfold sqlLe
    omega⟩

instance : IsTrans TelegramLink sqlLe :=
  ⟨fun a b c hab hbc => by
    unfold sqlLe at *
    omega⟩

/-- The `WHERE` clause of the `exclude_unknown_chats=True` branch of
`get_tg_links`: a bound chat id, and a row unclaimed or claimed by this
session. -/
def dueFilter (session : Str) (l : TelegramLink) : Bool :=
  l.chat_id.isSome &&
    (decide (l.parser_account = some session) || decide (l.parser_account = none))

/-- `get_tg_links(exclude_unknown_chats=True, session_name)`: filter the rows,
sort them by the SQL key, and take the first 30. (The
`exclude_unknown_chats=False` branch samples one random unclaimed row via
`func.rand()` and is not modelled.) -/
def get_tg_links (session : Str) (links : List TelegramLink) : List TelegramLink :=
  (List.insertionSort sqlLe (links.filter (dueFilter session))).take 30

/-! ### main.py: per-message processing -/

/-- `message.from_user.id if message.from_user else None`. -/
def userId (m : Msg) : Option Int :=
  match m.from_user with
  | some u => some u.id
  | none => none

/-- `message.from_user.username if message.from_user else None`. -/
def userName (m : Msg) : Option Str :=
  match m.from_user with
  | some u => u.username
  | none => none

/-- `TelegramParser.process_message`: returns the cursor candidate
(`message.id`, or `None` for a textless or duplicate message) together
with the awaited save effect, if any. A message passing the duplicate
check but matching no category advances the cursor without being saved;
`_save_relevant_message` additionally refuses empty data. -/
def process_message (θ : ℚ) (lg sq : ℚ → ℚ) (htmlText : Str → Str)
    (yesterday : Int) (dbMsgs : List (Int × Str)) (kws : List Keyword)
    (m : Msg) : Option Nat × List Eff :=
  if m.text = [] then (none, [])
  else if check_duplicate θ lg sq htmlText yesterday dbMsgs m.text = false then
    (none, [])
  else if find_message_categories m.text kws = ∅ then (some m.id, [])
  else if get_text_with_link m = [] then (some m.id, [])
  else
    (some m.id,
      [.saveMessage (get_text_with_link m) m.date
        (find_message_categories m.text kws) (userId m) (userName m)
        m.chat_id m.link])

/-- The `@alru_cache(ttl=300)` decorator on `check_duplicate`
(operations.py:122): the memo table maps the single argument `text` to
(insertion time, result); an entry is served while less than 300 seconds
old, otherwise the body runs against the CURRENT messages table and the
fresh result is stored. Because the body reads mutable state, a served
entry can be stale: its verdict reflects the table as of up to 300
seconds ago. Returns (verdict, updated memo table). -/
def check_duplicate_cached (θ : ℚ) (lg sq : ℚ → ℚ) (htmlText : Str → Str)
    (cache : List (Str × Nat × Bool)) (now : Nat) (yesterday : Int)
    (dbMsgs : List (Int × Str)) (text : Str) : Bool × List (Str × Nat × Bool) :=
  match cache.find? (fun e => decide (e.1 = text) && decide (now < e.2.1 + 300)) with
  | some e => (e.2.2, cache)
  | none =>
    (check_duplicate θ lg sq htmlText yesterday dbMsgs text,
      (text, now, check_duplicate θ lg sq htmlText yesterday dbMsgs text) :: cache)

/-- `process_message` as the program actually runs it: the duplicate check it
awaits at main.py:106 is the `@alru_cache`-decorated function, so the
verdict may come from the memo table. The textless guard runs first, so
an empty text never touches the cache. Returns the (cursor candidate,
save effects) pair together with the updated memo table. -/
def process_message_cached (θ : ℚ) (lg sq : ℚ → ℚ) (htmlText : Str → Str)
    (cache : List (Str × Nat × Bool)) (now : Nat) (yesterday : Int)
    (dbMsgs : List (Int × Str)) (kws : List Keyword) (m : Msg) :
    (Option Nat × List Eff) × List (Str × Nat × Bool) :=
  if m.text = [] then ((none, []), cache)
  else if (check_duplicate_cached θ lg sq htmlText cache now yesterday dbMsgs
      m.text).1 = false then
    ((none, []),
      (check_duplicate_cached θ lg sq htmlText cache now yesterday dbMsgs
        m.text).2)
  else if find_message_categories m.text kws = ∅ then
    ((some m.id, []),
      (check_duplicate_cached θ lg sq htmlText cache now yesterday dbMsgs
        m.text).2)
  else if get_text_with_link m = [] then
    ((some m.id, []),
      (check_duplicate_cached θ lg sq htmlText cache now yesterday dbMsgs
        m.text).2)
  else
    ((some m.id,
        [.saveMessage (get_text_with_link m) m.date
          (find_message_categories m.text kws) (userId m) (userName m)
          m.chat_id m.link]),
      (check_duplicate_cached θ lg sq htmlText cache now yesterday dbMsgs
        m.text).2)

/-- A repost text that carries its own attribution anchor, so that its
stripped form (`"hello"`) exactly equals the stripped form of its
persisted copy. -/
def anchoredText : Str := "hello<a href=\"u\">z</a>".data

/-- The persisted copy of the first repost: `get_text_with_link` appends the
anchor line, and stripping cuts at the repost's OWN first anchor, giving
`"hello"` again. -/
def storedAnchored : Str :=
  get_text_with_link ⟨9, anchoredText, 77, "T".data, "L".data, none, 99⟩

/-- The cursor update in the `process_chat` loop:
`if new_max_id: max_id = max(new_max_id, max_id)` (Python truthiness:
`None` and `0` are falsy). -/
def cursorStep (maxId : Nat) : Option Nat → Nat
  | some i => if i = 0 then maxId else max i maxId
  | none => maxId

/-- The in-memory row update of one loop iteration: a truthy returned id
additionally refreshes `last_check_at` (main.py:211). -/
def stepLink (now : Nat) (tl : TelegramLink) : Option Nat → TelegramLink
  | some i => if i = 0 then tl else { tl with last_check_at := some now }
  | none => tl

/-- One iteration of the message loop in `process_chat`: bind the chat id via
`save_chat_id`, process the message, and on a truthy returned id advance
the cursor and refresh the in-memory `last_check_at`. State:
(max_id, in-memory telegram_link, awaited effects so far). -/
def chatStep (θ : ℚ) (lg sq : ℚ → ℚ) (htmlText : Str → Str) (yesterday : Int)
    (dbMsgs : List (Int × Str)) (kws : List Keyword) (session : Str) (now : Nat)
    (st : Nat × TelegramLink × List Eff) (m : Msg) :
    Nat × TelegramLink × List Eff :=
  (cursorStep st.1 (process_message θ lg sq htmlText yesterday dbMsgs kws m).1,
    stepLink now (save_chat_id st.2.1 m.chat_id (some session)).1
      (process_message θ lg sq htmlText yesterday dbMsgs kws m).1,
    st.2.2 ++ (save_chat_id st.2.1 m.chat_id (some session)).2 ++
      (process_message θ lg sq htmlText yesterday dbMsgs kws m).2)

/-- `MAX_MESSAGES_PER_CHAT` from `ParserConfig`. -/
def MAX_MESSAGES_PER_CHAT : Nat := 300

/-- Outcome of `client.get_chat(chat)` at the top of `process_chat`. -/
inductive GetChatResult
  /-- Chat info returned: `chat_info.type` (as compared against the string
  literals in the code) and `chat_info.is_accessible`. -/
  | ok (typ : Str) (accessible : Bool)
  /-- `UsernameInvalid`/`UsernameNotOccupied`/`ChannelInvalid`. -/
  | permErr
  /-- `BadRequest`. -/
  | badReq
  /-- Any other exception (reaches the generic `except Exception`). -/
  | raised
deriving DecidableEq

/-- How the message iteration of `process_chat` ended: normally (or by the
in-loop break), by a `FloodWait`, or by any other exception. In the two
exception cases the delivered message list is the prefix the loop
processed before the exception. -/
inductive PollEnd
  | normal
  | flood (secs : Nat)
  | errored
deriving DecidableEq

/-- Result of one `process_chat` call: the final in-memory row, the `max_id`
value at the `finally` clause (`none` when the poll exited before the
`try` block), and the awaited effects in order. -/
structure PollResult where
  link : TelegramLink
  finalCursor : Option Nat
  effs : List Eff
deriving DecidableEq

/-- The `if not chat:` truthiness test on `extract_chat`'s result. -/
def chatTruthy : ChatRef → Bool
  | .invite l => l ≠ []
  | .handle h => h ≠ []
  | .chatId c => c ≠ 0

/-- `chat_info.type in ["group", "supergroup", "channel"] and not
chat_info.is_accessible`. -/
def isRestricted (typ : Str) (accessible : Bool) : Bool :=
  (decide (typ = "group".data) || decide (typ = "supergroup".data)
      || decide (typ = "channel".data))
    && !accessible

/-- The `finally` clause of `process_chat` (main.py:226): the call
`update_telegram_link_last_check(telegram_link, last_check_at, max_id)`
is missing an `await`, so the coroutine is built and immediately
discarded — no database effect is emitted. -/
def finallyClause (tl : TelegramLink) (checkedAt : Nat) (maxId : Nat) : List Eff :=
  let _ := update_telegram_link_last_check tl checkedAt maxId
  []

/-- Wrap up the message loop: emit the FloodWait backoff sleep when the loop
was cut by a rate-limit signal, then run the `finally` clause. -/
def finishLoop (st : Nat × TelegramLink × List Eff) (ending : PollEnd)
    (now : Nat) : PollResult :=
  let effs :=
    match ending with
    | .flood n => st.2.2 ++ [Eff.sleep n]
    | _ => st.2.2
  ⟨st.2.1, some st.1, effs ++ finallyClause st.2.1 now st.1⟩

/-- The message-iteration phase of `process_chat`: fold the loop body over the
delivered messages (capped at `MAX_MESSAGES_PER_CHAT`), starting from the
stored cursor (0 when null) and the given already-emitted effects, then
wrap up with the FloodWait backoff and the `finally` clause. -/
def pollLoop (θ : ℚ) (lg sq : ℚ → ℚ) (htmlText : Str → Str) (yesterday : Int)
    (dbMsgs : List (Int × Str)) (kws : List Keyword) (session : Str)
    (now : Nat) (tl : TelegramLink) (msgs : List Msg) (ending : PollEnd)
    (initEffs : List Eff) : PollResult :=
  finishLoop
    ((msgs.take MAX_MESSAGES_PER_CHAT).foldl
      (chatStep θ lg sq htmlText yesterday dbMsgs kws session now)
      (tl.last_message_id.getD 0, tl, initEffs))
    ending now

/-- A poll that entered the `try` block and exits early (permanent resolve
error, bad request, unexpected `get_chat` error, missing invite link, or a
raising join): the `finally` clause runs, discarding the unawaited
write-back coroutine. -/
def abortPoll (tl : TelegramLink) (now : Nat) : PollResult :=
  ⟨tl, some (tl.last_message_id.getD 0),
    finallyClause tl now (tl.last_message_id.getD 0)⟩

/-- `TelegramParser.process_chat(telegram_link, stats)`. External inputs: the
`get_chat` outcome `gc`, whether `join_chat` raises, the message prefix
`msgs` the fetch generator delivers, and how the iteration ends. `now`
stands for `datetime.utcnow()` (the poll-start `last_check_at`). Every
path that entered the `try` block runs the `finally` clause, which
discards the unawaited `update_telegram_link_last_check` coroutine. -/
def process_chat (θ : ℚ) (lg sq : ℚ → ℚ) (htmlText : Str → Str)
    (yesterday : Int) (dbMsgs : List (Int × Str)) (kws : List Keyword)
    (session : Str) (now : Nat) (tl : TelegramLink) (gc : GetChatResult)
    (joinRaises : Bool) (msgs : List Msg) (ending : PollEnd) : PollResult :=
  match extract_chat tl with
  | none => ⟨tl, none, []⟩
  | some chat =>
    if chatTruthy chat = false then ⟨tl, none, []⟩
    else
      match gc with
      | .permErr => abortPoll tl now
      | .badReq => abortPoll tl now
      | .raised => abortPoll tl now
      | .ok typ accessible =>
        if isRestricted typ accessible then
          match tl.link with
          | some l =>
            if tmePlus.isPrefixOf l then
              if joinRaises then abortPoll tl now
              else
                pollLoop θ lg sq htmlText yesterday dbMsgs kws session now tl
                  msgs ending [Eff.joinChat l]
            else abortPoll tl now
          | none => abortPoll tl now
        else
          pollLoop θ lg sq htmlText yesterday dbMsgs kws session now tl msgs
            ending []

/-! ### main.py: the scheduler loop (`TelegramParser.run`) -/

/-- One link of one scheduling run, on the state (inaccessible set, links
polled so far): skip a link in the `inaccessible_chats` set; otherwise
poll it, adding it to the set when the poll raises and removing it from
the set when the poll succeeds (the removal is a no-op, since a polled
link was not in the set). `fails lk` abstracts whether `process_chat`
for `lk` raises an exception. -/
def runStep (fails : Str → Bool) (st : List Str × List Str) (lk : Str) :
    List Str × List Str :=
  if lk ∈ st.1 then st
  else if fails lk then (lk :: st.1, st.2 ++ [lk])
  else ((st.1).erase lk, st.2 ++ [lk])

/-- The body of one scheduling run: fold `runStep` over the fetched batch,
starting from the carried-over `inaccessible_chats` set and an empty
polled list. -/
def runOnce (fails : Str → Bool) (inacc : List Str) (batch : List Str) :
    List Str × List Str :=
  batch.foldl (runStep fails) (inacc, [])

/-- The `inaccessible_chats` set at the start of run `n` of the
`while True:` loop. It is created empty once, before the loop, and
carried across runs. `batches n` is the batch `get_tg_links` returns in
run `n`; `fails n lk` abstracts whether polling `lk` raises in run `n`. -/
def schedulerInacc (fails : Nat → Str → Bool) (batches : Nat → List Str) :
    Nat → List Str
  | 0 => []
  | n + 1 => (runOnce (fails n) (schedulerInacc fails batches n) (batches n)).1

/-- The links actually polled (handed to `process_chat`) in run `n`. -/
def schedulerPolled (fails : Nat → Str → Bool) (batches : Nat → List Str)
    (n : Nat) : List Str :=
  (runOnce (fails n) (schedulerInacc fails batches n) (batches n)).2

/-! ### The database state and effect application -/

/-- A persisted `messages` row with its category associations. -/
structure SavedMessage where
  text : Str
  date : Nat
  categories : Finset Int
  from_user_id : Option Int
  from_username : Option Str
  chat_id : Int
  link : Str
deriving DecidableEq

/-- The relational store: the `telegram_links` rows and the `messages` rows. -/
structure DB where
  links : List TelegramLink
  messages : List SavedMessage
deriving DecidableEq

/-- Apply one awaited effect to the store. A merge replaces the row with the
matching id by the snapshot; the cursor write-back sets `last_check_at`
and `last_message_id` on the matching row. -/
def applyEff (db : DB) : Eff → DB
  | .mergeLink snap =>
    { db with links := db.links.map (fun l => if l.id = snap.id then snap else l) }
  | .saveMessage t d c uid un cid lk =>
    { db with messages := db.messages ++ [⟨t, d, c, uid, un, cid, lk⟩] }
  | .updateLastCheck lid t mid =>
    { db with
      links := db.links.map (fun l =>
        if l.id = lid then
          { l with last_check_at := some t, last_message_id := some mid }
        else l) }
  | .joinChat _ => db
  | .sleep _ => db

/-- Apply a list of awaited effects in order. -/
def applyEffs (db : DB) (effs : List Eff) : DB := effs.foldl applyEff db

/-! ## Claim theorems -/

/-- C4, counterexample. The categorizer is NOT case-insensitive in the keyword:
for the keyword `"SALE"` and the text `"Big SALE today"`, the lower-cased
keyword is a substring of the lower-cased text — so the claim asserts the
category is added — yet `find_message_categories` lower-cases only the
message text, compares it against the keyword as stored, and returns the
empty set. -/
theorem find_message_categories_not_keyword_case_insensitive :
    7 ∉ find_message_categories "Big SALE today".data [⟨"SALE".data, 7⟩] ∧
      substrOf ("SALE".data.map Char.toLower)
        ("Big SALE today".data.map Char.toLower) = true := by
  constructor
  · decide
  · decide

/-- C4, amended. The categorizer lower-cases only the message body: a
keyword's category id is added exactly when the keyword text, as stored,
is a substring of the lower-cased message text (and the text is
non-empty). The spec's example still holds because its keyword `"sale"`
is already lower-case: `categorize("Big SALE today")` with keyword
`"sale"` mapped to category 7 yields `{7}`. -/
theorem find_message_categories_spec (text : Str) (kws : List Keyword) (c : Int) :
    (c ∈ find_message_categories text kws ↔
      text ≠ [] ∧ ∃ k ∈ kws,
        substrOf k.keyword (text.map Char.toLower) = true ∧ k.category_id = c) ∧
      find_message_categories "Big SALE today".data [⟨"sale".data, 7⟩] = {7} := by
  constructor
  · unfold find_message_categories
    by_cases h : text = []
    · simp [h]
    · simp only [h, if_neg, List.mem_toFinset, List.mem_map, List.mem_filter,
        ne_eq, not_false_eq_true, true_and, if_false]
      constructor
      · rintro ⟨k, ⟨hk, hs⟩, hc⟩
        exact ⟨k, hk, hs, hc⟩
      · rintro ⟨k, hk, hs, hc⟩
        exact ⟨k, ⟨hk, hs⟩, hc⟩
  · decide

/-- C5, counterexample. Called with empty input text, `check_duplicate`
returns `True` — but the "duplicate" verdict, the one on which the caller
skips a message (`if not await check_duplicate(...)`), is `False`. The
empty-text result is therefore the pass/fail-open verdict, not the
suppressing one. -/
theorem check_duplicate_empty_not_suppress :
    check_duplicate (7 / 10) (fun q => q) (fun q => q) (fun s => s) 0 [] [] ≠
      false := by
  intro h
  simp [check_duplicate] at h

/-- C5, amended. `check_duplicate` on empty input returns `True` — the same
value as the fail-open internal-error path, i.e. the "not a duplicate"
verdict under the caller's convention — so an empty-text candidate is not
suppressed by the duplicate check; textless messages are instead skipped
earlier by `process_message`'s `if not message.text` guard, before the
duplicate check runs. -/
theorem check_duplicate_empty_spec (θ : ℚ) (lg sq : ℚ → ℚ)
    (htmlText : Str → Str) (yesterday : Int) (dbMsgs : List (Int × Str))
    (kws : List Keyword) (m : Msg) :
    check_duplicate θ lg sq htmlText yesterday dbMsgs [] = true ∧
      process_message θ lg sq htmlText yesterday dbMsgs kws
          { m with text := [] } = (none, []) := by
  constructor
  · rfl
  · rfl

/-- C9, counterexample. A source whose `chat_id` is already set to `0` is
"set" in the claim's sense, yet `save_chat_id` tests Python truthiness
(`if telegram_link.chat_id:`), for which `0` is falsy: the call overwrites
`chat_id` with the new value and performs a merge, contradicting the
claimed no-op. -/
theorem save_chat_id_zero_not_noop :
    (save_chat_id ⟨"x".data, none, some 0, none, none, none, none⟩ 42
          (some "w".data)).1.chat_id = some 42 ∧
      (save_chat_id ⟨"x".data, none, some 0, none, none, none, none⟩ 42
          (some "w".data)).2 ≠ [] := by
  constructor
  · decide
  · decide

/-- C9, amended. `save_chat_id` is a no-op (no field change, no write) exactly
when the stored `chat_id` is truthy, i.e. non-null AND non-zero; when
`chat_id` is null (or zero), it binds `chat_id` to the given value, sets
the owning account (`parser_account`) to the calling session's name, and
merges the row. -/
theorem save_chat_id_spec (tl : TelegramLink) (cid : Int) (session : Option Str) :
    (∀ c, tl.chat_id = some c → c ≠ 0 → save_chat_id tl cid session = (tl, [])) ∧
      (tl.chat_id = none →
        save_chat_id tl cid session =
          ({ tl with chat_id := some cid, parser_account := session },
            [.mergeLink { tl with chat_id := some cid, parser_account := session }])) := by
  constructor
  · intro c hc hc0
    unfold save_chat_id
    rw [hc]
    simp [hc0]
  · intro hc
    unfold save_chat_id
    rw [hc]
    simp

/-- Witness for C9's amended theorem: a row with `chat_id = 3` is left
untouched with no write, and a row with `chat_id = None` gets the chat id
and the owning account bound. -/
theorem save_chat_id_spec_witness :
    save_chat_id ⟨"x".data, none, some 3, none, none, none, none⟩ 42
        (some "w".data) =
      (⟨"x".data, none, some 3, none, none, none, none⟩, []) ∧
      save_chat_id ⟨"y".data, none, none, none, none, none, none⟩ 42
          (some "w".data) =
        (⟨"y".data, none, some 42, none, none, none, some "w".data⟩,
          [.mergeLink ⟨"y".data, none, some 42, none, none, none, some "w".data⟩]) := by
  constructor
  · exact (save_chat_id_spec ⟨"x".data, none, some 3, none, none, none, none⟩ 42
      (some "w".data)).1 3 rfl (by decide)
  · exact (save_chat_id_spec ⟨"y".data, none, none, none, none, none, none⟩ 42
      (some "w".data)).2 rfl

/-- The SQL sort order, read off pointwise: a row with a `NULL`
`last_check_at` never precedes a non-`NULL` one, and non-`NULL` rows are
in ascending timestamp order. -/
theorem sqlLe_reading (a b : TelegramLink) (h : sqlLe a b) :
    (a.last_check_at = none → b.last_check_at = none) ∧
      ∀ ta tb, a.last_check_at = some ta → b.last_check_at = some tb → ta ≤ tb := by
  unfold sqlLe sqlKey at h
  constructor
  · intro ha
    rcases hb : b.last_check_at with _ | tb
    · rfl
    · rw [ha, hb] at h
      simp at h
  · intro ta tb hta htb
    rw [hta, htb] at h
    simp at h
    exact h

/-- C6, counterexample. With one never-polled source and one source polled at
time 5, both due, the batch comes back with the POLLED source first: the
`case(last_check_at IS NULL → 1, else 0)` ascending key sorts never-polled
sources last, not first as the claim states. -/
theorem get_tg_links_never_polled_last_counterexample :
    get_tg_links "w".data
        [⟨"a".data, none, some 1, none, none, none, none⟩,
          ⟨"b".data, none, some 2, some 5, none, none, none⟩] =
      [⟨"b".data, none, some 2, some 5, none, none, none⟩,
        ⟨"a".data, none, some 1, none, none, none, none⟩] := by
  decide

/-- C6, amended. Each scheduler cycle selects at most 30 sources, filtered to
those with a bound chat id that are unclaimed or owned by this worker,
ordered with the previously polled sources first in ascending order of
their last poll timestamp, followed by the never-polled sources. -/
theorem get_tg_links_spec (session : Str) (links : List TelegramLink) :
    (get_tg_links session links).length ≤ 30 ∧
      (∀ l ∈ get_tg_links session links,
        l.chat_id ≠ none ∧
          (l.parser_account = some session ∨ l.parser_account = none)) ∧
      (get_tg_links session links).Pairwise (fun a b =>
        (a.last_check_at = none → b.last_check_at = none) ∧
          ∀ ta tb, a.last_check_at = some ta → b.last_check_at = some tb →
            ta ≤ tb) := by
  refine ⟨?_, ?_, ?_⟩
  · exact List.length_take_le 30 _
  · intro l hl
    have h1 : l ∈ List.insertionSort sqlLe (links.filter (dueFilter session)) :=
      List.mem_of_mem_take hl
    have h2 : l ∈ links.filter (dueFilter session) :=
      (List.perm_insertionSort sqlLe _).subset h1
    have h3 := (List.mem_filter.mp h2).2
    unfold dueFilter at h3
    simp only [Bool.and_eq_true, Bool.or_eq_true, decide_eq_true_eq,
      Option.isSome_iff_exists] at h3
    refine ⟨?_, h3.2⟩
    rcases h3.1 with ⟨c, hc⟩
    simp [hc]
  · have hs : (List.insertionSort sqlLe (links.filter (dueFilter session))).Pairwise
        sqlLe :=
      List.sorted_insertionSort sqlLe _
    exact (List.Pairwise.sublist (List.take_sublist 30 _) hs).imp
      (fun h => sqlLe_reading _ _ h)

/-- Membership in the inaccessible set survives one `runStep`. -/
theorem runStep_mem_acc (fails : Str → Bool) (st : List Str × List Str)
    (lk l : Str) (h : l ∈ st.1) : l ∈ (runStep fails st lk).1 := by
  unfold runStep
  by_cases h1 : lk ∈ st.1
  · simp [h1, h]
  · by_cases h2 : fails lk
    · simp [h1, h2, h]
    · have hne : l ≠ lk := fun e => h1 (e ▸ h)
      simp [h1, h2, (List.mem_erase_of_ne hne).mpr h]

/-- Membership in the inaccessible set survives a whole run. -/
theorem foldl_runStep_mem_acc (fails : Str → Bool) (batch : List Str) :
    ∀ st : List Str × List Str, ∀ l ∈ st.1,
      l ∈ (batch.foldl (runStep fails) st).1 := by
  induction batch with
  | nil => intro st l h; exact h
  | cons lk rest ih =>
    intro st l h
    exact ih (runStep fails st lk) l (runStep_mem_acc fails st lk l h)

/-- A link in the inaccessible set is never polled during a run. -/
theorem foldl_runStep_not_polled (fails : Str → Bool) (batch : List Str) :
    ∀ st : List Str × List Str, ∀ l, l ∈ st.1 → l ∉ st.2 →
      l ∉ (batch.foldl (runStep fails) st).2 := by
  induction batch with
  | nil => intro st l _ h2; exact h2
  | cons lk rest ih =>
    intro st l h1 h2
    by_cases hmem : lk ∈ st.1
    · have hstep : runStep fails st lk = st := by simp [runStep, hmem]
      rw [List.foldl_cons, hstep]
      exact ih st l h1 h2
    · have hne : l ≠ lk := fun e => hmem (e ▸ h1)
      by_cases hf : fails lk
      · have hstep : runStep fails st lk = (lk :: st.1, st.2 ++ [lk]) := by
          simp [runStep, hmem, hf]
        rw [List.foldl_cons, hstep]
        refine ih _ l (by simp [h1]) ?_
        simp [h2, hne]
      · have hstep : runStep fails st lk = ((st.1).erase lk, st.2 ++ [lk]) := by
          simp [runStep, hmem, hf]
        rw [List.foldl_cons, hstep]
        refine ih _ l (by simp [(List.mem_erase_of_ne hne).mpr h1]) ?_
        simp [h2, hne]

/-- A link polled during a run whose poll raises ends up in the inaccessible
set (unless it was already recorded as polled before the fold started). -/
theorem foldl_runStep_polled_fail (fails : Str → Bool) (l : Str)
    (hf : fails l = true) (batch : List Str) :
    ∀ st : List Str × List Str, l ∈ (batch.foldl (runStep fails) st).2 →
      l ∈ (batch.foldl (runStep fails) st).1 ∨ l ∈ st.2 := by
  induction batch with
  | nil => intro st h; exact Or.inr h
  | cons lk rest ih =>
    intro st h
    rw [List.foldl_cons] at h
    by_cases hmem : lk ∈ st.1
    · have hstep : runStep fails st lk = st := by simp [runStep, hmem]
      rw [List.foldl_cons, hstep]
      rw [hstep] at h
      exact ih st h
    · by_cases hfk : fails lk
      · have hstep : runStep fails st lk = (lk :: st.1, st.2 ++ [lk]) := by
          simp [runStep, hmem, hfk]
        rw [List.foldl_cons, hstep]
        rw [hstep] at h
        rcases ih _ h with h1 | h2
        · exact Or.inl h1
        · rcases List.mem_append.mp h2 with h3 | h3
          · exact Or.inr h3
          · have : l = lk := by simpa using h3
            exact Or.inl (foldl_runStep_mem_acc fails rest _ l (by simp [this]))
      · have hstep : runStep fails st lk = ((st.1).erase lk, st.2 ++ [lk]) := by
          simp [runStep, hmem, hfk]
        rw [List.foldl_cons, hstep]
        rw [hstep] at h
        rcases ih _ h with h1 | h2
        · exact Or.inl h1
        · rcases List.mem_append.mp h2 with h3 | h3
          · exact Or.inr h3
          · have hlk : l = lk := by simpa using h3
            rw [hlk] at hf
            rw [hf] at hfk
            exact absurd rfl hfk

/-- C7, counterexample. `inaccessible_chats` is created once, before the
`while True:` loop, so it persists across runs: a source that fails in
run 0 is still in the set in run 1 and is skipped there, even though the
batch offers it again — it is NOT eligible for polling in the next run as
the claim states. -/
theorem scheduler_next_run_not_polled_counterexample :
    "a".data ∈ schedulerPolled (fun n l => decide (n = 0 ∧ l = "a".data))
        (fun _ => ["a".data]) 0 ∧
      (fun n l => decide (n = 0 ∧ l = "a".data)) 0 "a".data = true ∧
      "a".data ∈ (fun _ => (["a".data] : List Str)) 1 ∧
      "a".data ∉ schedulerPolled (fun n l => decide (n = 0 ∧ l = "a".data))
        (fun _ => ["a".data]) 1 := by
  refine ⟨by decide, by decide, by decide, by decide⟩

/-- C7, amended. A source whose poll raises an unexpected error is excluded
from consideration not just for the remainder of the current run but for
every later run of the same process: the `inaccessible_chats` set is
initialized before the scheduler loop and persists across runs, a source
in it is skipped before `process_chat` is reached, and the only removal
path requires a successful poll, which the skip makes unreachable. -/
theorem scheduler_failed_source_excluded_forever (fails : Nat → Str → Bool)
    (batches : Nat → List Str) (l : Str) (n : Nat)
    (hpolled : l ∈ schedulerPolled fails batches n) (hfail : fails n l = true) :
    ∀ m, n < m → l ∉ schedulerPolled fails batches m := by
  have hbase : l ∈ schedulerInacc fails batches (n + 1) := by
    unfold schedulerPolled runOnce at hpolled
    rcases foldl_runStep_polled_fail (fails n) l hfail (batches n) _ hpolled with
      h | h
    · exact h
    · simp at h
  have hpersist : ∀ m, n + 1 ≤ m → l ∈ schedulerInacc fails batches m := by
    intro m hm
    induction m with
    | zero => omega
    | succ k ih =>
      rcases Nat.lt_or_ge (n + 1) (k + 1) with hlt | hge
      · have hk := ih (by omega)
        unfold schedulerInacc runOnce
        exact foldl_runStep_mem_acc (fails k) (batches k) _ l hk
      · have : n + 1 = k + 1 := by omega
        rw [← this]
        exact hbase
  intro m hm
  unfold schedulerPolled runOnce
  exact foldl_runStep_not_polled (fails m) (batches m) _ l
    (hpersist m (by omega)) (by simp)

/-- Witness for C7's amended theorem: the source `"a"` fails in run 0 and is
then absent from the polled list of runs 1 and 2. -/
theorem scheduler_failed_source_excluded_forever_witness :
    "a".data ∉ schedulerPolled (fun n l => decide (n = 0 ∧ l = "a".data))
        (fun _ => ["a".data]) 1 ∧
      "a".data ∉ schedulerPolled (fun n l => decide (n = 0 ∧ l = "a".data))
        (fun _ => ["a".data]) 2 := by
  constructor
  · exact scheduler_failed_source_excluded_forever _ _ _ 0 (by decide) (by decide)
      1 (by decide)
  · exact scheduler_failed_source_excluded_forever _ _ _ 0 (by decide) (by decide)
      2 (by decide)

/-! ### Exact-match duplicates score 1 (supporting lemmas for C3 and C8) -/

/-- A corpus whose first document has a token has a vocabulary. -/
theorem vocab_ne_nil_left (a b : List Str) (ha : a ≠ []) : vocab a b ≠ [] := by
  unfold vocab
  intro h
  rcases List.append_eq_nil.mp ((List.dedup_eq_nil _).mp h) with ⟨h1, _⟩
  exact ha h1

/-- Vocabulary membership for the equal-documents corpus. -/
theorem mem_vocab_self (a : List Str) (t : Str) : t ∈ vocab a a ↔ t ∈ a := by
  unfold vocab
  rw [List.mem_dedup, List.mem_append]
  exact or_self_iff

/-- For two equal documents every term has document frequency 2, so the
smooth idf is `lg(3/3) + 1 = 1` whenever the oracle agrees that
`lg 1 = 0`. -/
theorem idf_self (lg : ℚ → ℚ) (a : List Str) (t : Str) (hlg : lg 1 = 0)
    (ht : t ∈ a) : idf lg a a t = 1 := by
  unfold idf df2
  rw [if_pos ht]
  norm_num [hlg]

/-- The self dot product of a non-empty document in the equal-documents
corpus is positive. -/
theorem dotAB_self_pos (lg : ℚ → ℚ) (a : List Str) (hlg : lg 1 = 0)
    (ha : a ≠ []) : 0 < dotAB lg a a a a := by
  unfold dotAB
  apply List.sum_pos
  · intro x hx
    rcases List.mem_map.mp hx with ⟨t, ht, rfl⟩
    have hta : t ∈ a := (mem_vocab_self a t).mp ht
    have htf : 0 < tf a t := by
      unfold tf
      exact_mod_cast List.count_pos_iff.mpr hta
    have hent : 0 < tfidfEntry lg a a a t := by
      unfold tfidfEntry
      rw [idf_self lg a t hlg hta]
      simpa using htf
    exact mul_pos hent hent
  · simp only [ne_eq, List.map_eq_nil_iff]
    exact vocab_ne_nil_left a a ha

/-- The cosine similarity of a document with itself is exactly 1, provided
the square-root oracle is exact on the self dot product. -/
theorem cosSim_self_eq_one (lg sq : ℚ → ℚ) (a : List Str) (hlg : lg 1 = 0)
    (ha : a ≠ [])
    (hsq : sq (dotAB lg a a a a) * sq (dotAB lg a a a a) = dotAB lg a a a a) :
    cosSim lg sq a a = 1 := by
  have hD : 0 < dotAB lg a a a a := dotAB_self_pos lg a hlg ha
  have hsqne : sq (dotAB lg a a a a) ≠ 0 := by
    intro h
    rw [h, mul_zero] at hsq
    exact absurd hsq.symm (ne_of_gt hD)
  unfold cosSim
  simp only [hsqne, or_self, if_false]
  rw [hsq]
  exact div_self (ne_of_gt hD)

/-- Scoring any text against a candidate with at least one token never raises:
the pair's vocabulary contains the candidate's tokens. -/
theorem pairSimilarity_ok (lg sq : ℚ → ℚ) (c y : Str) (hc : tokens c ≠ []) :
    pairSimilarity lg sq c y = .ok (cosSim lg sq (tokens c) (tokens y)) := by
  unfold pairSimilarity
  rw [if_neg (vocab_ne_nil_left (tokens c) (tokens y) hc)]

/-- When the candidate has a token (so no comparison raises) and some stored
text scores at or above the threshold, the scan loop returns the
"duplicate found" verdict. -/
theorem dupScan_finds (θ : ℚ) (lg sq : ℚ → ℚ) (htmlText : Str → Str) (c : Str)
    (hc : tokens c ≠ []) :
    ∀ l : List Str,
      (∃ y ∈ l, θ ≤ cosSim lg sq (tokens c) (tokens (strip htmlText y))) →
        dupScan θ lg sq htmlText c l = .ok false := by
  intro l
  induction l with
  | nil =>
    rintro ⟨y, hy, -⟩
    exact absurd hy (List.not_mem_nil y)
  | cons s rest ih =>
    rintro ⟨y, hy, hv⟩
    rw [dupScan, pairSimilarity_ok lg sq c (strip htmlText s) hc]
    by_cases hs : θ ≤ cosSim lg sq (tokens c) (tokens (strip htmlText s))
    · simp [hs]
    · simp only [hs, if_false]
      rcases List.mem_cons.mp hy with rfl | hy'
      · exact absurd hv hs
      · exact ih ⟨y, hy', hv⟩

/-- The core of C3: a candidate whose stripped text exactly equals the
stripped text of a message stored inside the trailing window, and whose
stripped text has at least one token, is flagged as a duplicate
(`check_duplicate` returns `False`), for any threshold at most 1 and any
numeric oracles exact at the needed points. -/
theorem check_duplicate_exact_match (θ : ℚ) (lg sq : ℚ → ℚ)
    (htmlText : Str → Str) (yesterday : Int) (dbMsgs : List (Int × Str))
    (text s : Str) (t : Int) (hθ : θ ≤ 1) (hlg : lg 1 = 0)
    (hmem : (t, s) ∈ dbMsgs) (ht : yesterday < t)
    (heq : strip htmlText s = strip htmlText text)
    (htok : tokens (strip htmlText text) ≠ [])
    (hsq : sq (dotAB lg (tokens (strip htmlText text))
            (tokens (strip htmlText text)) (tokens (strip htmlText text))
            (tokens (strip htmlText text))) *
          sq (dotAB lg (tokens (strip htmlText text))
            (tokens (strip htmlText text)) (tokens (strip htmlText text))
            (tokens (strip htmlText text))) =
        dotAB lg (tokens (strip htmlText text)) (tokens (strip htmlText text))
          (tokens (strip htmlText text)) (tokens (strip htmlText text)))
    (htext : text ≠ []) :
    check_duplicate θ lg sq htmlText yesterday dbMsgs text = false := by
  have hsmem : s ∈ recentTexts yesterday dbMsgs := by
    unfold recentTexts
    exact List.mem_map.mpr ⟨(t, s), List.mem_filter.mpr ⟨hmem, by simpa using ht⟩, rfl⟩
  have hscan : dupScan θ lg sq htmlText (strip htmlText text)
      (recentTexts yesterday dbMsgs) = .ok false := by
    apply dupScan_finds θ lg sq htmlText (strip htmlText text) htok
    refine ⟨s, hsmem, ?_⟩
    rw [heq, cosSim_self_eq_one lg sq (tokens (strip htmlText text)) hlg htok hsq]
    exact hθ
  unfold check_duplicate
  rw [if_neg htext, hscan]

/-- Concrete evaluation used by witnesses: the self dot product of the
one-token document `["hello"]` under the trivial log oracle is 1. -/
theorem dotAB_hello_token :
    dotAB (fun _ => (0 : ℚ)) [['h', 'e', 'l', 'l', 'o']]
      [['h', 'e', 'l', 'l', 'o']] [['h', 'e', 'l', 'l', 'o']]
      [['h', 'e', 'l', 'l', 'o']] = 1 := by
  have hv : vocab [['h', 'e', 'l', 'l', 'o']] [['h', 'e', 'l', 'l', 'o']] =
      [['h', 'e', 'l', 'l', 'o']] := by decide
  have hc : ([['h', 'e', 'l', 'l', 'o']] : List Str).count
      ['h', 'e', 'l', 'l', 'o'] = 1 := by decide
  unfold dotAB
  rw [hv]
  simp [tfidfEntry, tf, idf, df2, hc]

/-- The same self dot product reached from the plain text `"hello"`. -/
theorem dotAB_hello_eval :
    dotAB (fun _ => (0 : ℚ))
      (tokens (strip (fun s => s) ['h', 'e', 'l', 'l', 'o']))
      (tokens (strip (fun s => s) ['h', 'e', 'l', 'l', 'o']))
      (tokens (strip (fun s => s) ['h', 'e', 'l', 'l', 'o']))
      (tokens (strip (fun s => s) ['h', 'e', 'l', 'l', 'o'])) = 1 := by
  have ht : tokens (strip (fun s => s) ['h', 'e', 'l', 'l', 'o']) =
      [['h', 'e', 'l', 'l', 'o']] := by decide
  rw [ht]
  exact dotAB_hello_token

/-- The same self dot product reached from the anchored repost text, whose
stripped form is also the single token `"hello"`. -/
theorem dotAB_anchored_eval :
    dotAB (fun _ => (0 : ℚ)) (tokens (strip (fun s => s) anchoredText))
      (tokens (strip (fun s => s) anchoredText))
      (tokens (strip (fun s => s) anchoredText))
      (tokens (strip (fun s => s) anchoredText)) = 1 := by
  have ht : tokens (strip (fun s => s) anchoredText) =
      [['h', 'e', 'l', 'l', 'o']] := by decide
  rw [ht]
  exact dotAB_hello_token

/-- C3, counterexample. The duplicate check the program runs is memoized with
`@alru_cache(ttl=300)` although its body reads the mutable messages
table, so a stale verdict can let an exact duplicate through. Concretely:
the repost `anchoredText` is checked at time 0 against an empty window
(pass verdict, computed fresh, persisted, and the verdict cached); the
same text is checked again at time 100 — within the TTL — when the
window now holds the persisted copy `storedAnchored`, whose stripped
text exactly equals the candidate's. The cached call serves the stale
pass verdict and the caller persists the message a SECOND time, even
though a fresh computation at that moment returns the duplicate
verdict. -/
theorem dup_cached_stale_persists_twice :
    ((process_message_cached 1 (fun _ => (0 : ℚ)) (fun q => q) (fun s => s) []
          0 (-86400) [] [⟨"hello".data, 7⟩]
          ⟨9, anchoredText, 77, "T".data, "L".data, none, 99⟩).1).2 ≠ [] ∧
      (process_message_cached 1 (fun _ => (0 : ℚ)) (fun q => q) (fun s => s) []
          0 (-86400) [] [⟨"hello".data, 7⟩]
          ⟨9, anchoredText, 77, "T".data, "L".data, none, 99⟩).2 =
        [(anchoredText, 0, true)] ∧
      strip (fun s => s) storedAnchored = strip (fun s => s) anchoredText ∧
      ((process_message_cached 1 (fun _ => (0 : ℚ)) (fun q => q) (fun s => s)
          [(anchoredText, 0, true)] 100 (-86300) [(10, storedAnchored)]
          [⟨"hello".data, 7⟩]
          ⟨10, anchoredText, 88, "T2".data, "L2".data, none, 100⟩).1).2 ≠ [] ∧
      check_duplicate 1 (fun _ => (0 : ℚ)) (fun q => q) (fun s => s) (-86300)
          [(10, storedAnchored)] anchoredText = false := by
  refine ⟨by decide, by decide, by decide, by decide, ?_⟩
  exact check_duplicate_exact_match 1 (fun _ => (0 : ℚ)) (fun q => q)
    (fun s => s) (-86300) [(10, storedAnchored)] anchoredText storedAnchored 10
    (le_refl 1) rfl (by decide) (by decide) (by decide) (by decide)
    (by simp only [dotAB_anchored_eval, one_mul]) (by decide)

/-- C3, amended. The duplicate check is memoized (`@alru_cache(ttl=300)`),
and its verdicts are reliable only when freshly computed: whenever the
memo table has no valid entry for the candidate's text, a candidate
whose stripped text exactly matches the stripped text of a message
stored within the trailing 24 hours scores cosine similarity 1 ≥ the
threshold (whenever its stripped text has at least one token, so that a
similarity score exists at all), receives the duplicate verdict, and is
not persisted; a verdict cached up to 300 seconds earlier — possibly
before the matching message was stored — is served stale and can let
the duplicate through (see the counterexample). The numeric oracle
hypotheses state that the library log and square root are exact at the
two points this computation uses. -/
theorem dup_exact_match_rejected_when_fresh (θ : ℚ) (lg sq : ℚ → ℚ)
    (htmlText : Str → Str) (cache : List (Str × Nat × Bool)) (now : Nat)
    (yesterday : Int) (dbMsgs : List (Int × Str)) (kws : List Keyword)
    (text s : Str) (t : Int) (m : Msg)
    (hmiss : cache.find?
        (fun e => decide (e.1 = text) && decide (now < e.2.1 + 300)) = none)
    (hθ : θ ≤ 1) (hlg : lg 1 = 0) (hmem : (t, s) ∈ dbMsgs) (ht : yesterday < t)
    (heq : strip htmlText s = strip htmlText text)
    (htok : tokens (strip htmlText text) ≠ [])
    (hsq : sq (dotAB lg (tokens (strip htmlText text))
            (tokens (strip htmlText text)) (tokens (strip htmlText text))
            (tokens (strip htmlText text))) *
          sq (dotAB lg (tokens (strip htmlText text))
            (tokens (strip htmlText text)) (tokens (strip htmlText text))
            (tokens (strip htmlText text))) =
        dotAB lg (tokens (strip htmlText text)) (tokens (strip htmlText text))
          (tokens (strip htmlText text)) (tokens (strip htmlText text)))
    (htext : text ≠ []) (hm : m.text = text) :
    (check_duplicate_cached θ lg sq htmlText cache now yesterday dbMsgs
        text).1 = false ∧
      (process_message_cached θ lg sq htmlText cache now yesterday dbMsgs kws
          m).1 = (none, []) := by
  have hfresh := check_duplicate_exact_match θ lg sq htmlText yesterday dbMsgs
    text s t hθ hlg hmem ht heq htok hsq htext
  have hcached : (check_duplicate_cached θ lg sq htmlText cache now yesterday
      dbMsgs text).1 = false := by
    unfold check_duplicate_cached
    rw [hmiss]
    exact hfresh
  refine ⟨hcached, ?_⟩
  unfold process_message_cached
  rw [hm, if_neg htext, if_pos hcached]

/-- Witness for C3's amended theorem: with an empty memo table (a cache miss),
the text `"hello"`, already stored at time 5 inside the window, is
flagged as a duplicate and dropped without persistence. -/
theorem dup_exact_match_rejected_when_fresh_witness :
    (check_duplicate_cached 1 (fun _ => (0 : ℚ)) (fun q => q) (fun s => s) [] 0
        0 [(5, "hello".data)] "hello".data).1 = false ∧
      (process_message_cached 1 (fun _ => (0 : ℚ)) (fun q => q) (fun s => s) []
          0 0 [(5, "hello".data)] []
          ⟨9, "hello".data, 1, [], [], none, 0⟩).1 = (none, []) :=
  dup_exact_match_rejected_when_fresh 1 (fun _ => (0 : ℚ)) (fun q => q)
    (fun s => s) [] 0 0 [(5, "hello".data)] [] "hello".data "hello".data 5
    ⟨9, "hello".data, 1, [], [], none, 0⟩ rfl (le_refl 1) rfl (by decide)
    (by decide) rfl (by decide) (by simp only [dotAB_hello_eval, one_mul])
    (by decide) rfl

/-- C8. For a fetched message with text: when the duplicate check rejects it
(returns `False`), `process_message` returns no cursor candidate and no
save, and the in-memory cursor update leaves the cursor unchanged; when
it passes the duplicate check but the categorizer returns the empty set,
no save is produced yet the cursor candidate is the message id, and the
cursor update advances the cursor to `max(id, cursor)` — to the id itself
whenever the id is ahead of the cursor. -/
theorem process_message_cursor_discipline (θ : ℚ) (lg sq : ℚ → ℚ)
    (htmlText : Str → Str) (yesterday : Int) (dbMsgs : List (Int × Str))
    (kws : List Keyword) (m : Msg) (maxId : Nat) (htext : m.text ≠ []) :
    (check_duplicate θ lg sq htmlText yesterday dbMsgs m.text = false →
      process_message θ lg sq htmlText yesterday dbMsgs kws m = (none, []) ∧
        cursorStep maxId
          (process_message θ lg sq htmlText yesterday dbMsgs kws m).1 = maxId) ∧
      (check_duplicate θ lg sq htmlText yesterday dbMsgs m.text = true →
        find_message_categories m.text kws = ∅ →
          (process_message θ lg sq htmlText yesterday dbMsgs kws m).2 = [] ∧
            (process_message θ lg sq htmlText yesterday dbMsgs kws m).1 =
              some m.id ∧
            (m.id ≠ 0 →
              cursorStep maxId (some m.id) = max m.id maxId ∧
                (maxId ≤ m.id → cursorStep maxId (some m.id) = m.id))) := by
  constructor
  · intro hdup
    have hpm : process_message θ lg sq htmlText yesterday dbMsgs kws m =
        (none, []) := by
      unfold process_message
      rw [if_neg htext, if_pos hdup]
    exact ⟨hpm, by rw [hpm]; rfl⟩
  · intro hdup hcat
    have hpm : process_message θ lg sq htmlText yesterday dbMsgs kws m =
        (some m.id, []) := by
      unfold process_message
      rw [if_neg htext, if_neg (by simp [hdup]), if_pos hcat]
    refine ⟨by rw [hpm], by rw [hpm], fun h0 => ⟨by simp [cursorStep, h0], ?_⟩⟩
    intro hle
    simp [cursorStep, h0, Nat.max_eq_left hle]

/-- Witness for C8: a duplicate of the stored `"hello"` leaves the cursor at
3; a fresh `"hello"` with no matching keyword produces no save but moves
the cursor from 3 to its id 9. -/
theorem process_message_cursor_discipline_witness :
    (process_message 1 (fun _ => (0 : ℚ)) (fun q => q) (fun s => s) 0
          [(5, "hello".data)] [] ⟨9, "hello".data, 1, [], [], none, 0⟩ =
        (none, []) ∧
      cursorStep 3
          (process_message 1 (fun _ => (0 : ℚ)) (fun q => q) (fun s => s) 0
            [(5, "hello".data)] [] ⟨9, "hello".data, 1, [], [], none, 0⟩).1 =
        3) ∧
      ((process_message 1 (fun _ => (0 : ℚ)) (fun q => q) (fun s => s) 0 []
            [⟨"xyz".data, 7⟩] ⟨9, "hello".data, 1, [], [], none, 0⟩).2 = [] ∧
        (process_message 1 (fun _ => (0 : ℚ)) (fun q => q) (fun s => s) 0 []
            [⟨"xyz".data, 7⟩] ⟨9, "hello".data, 1, [], [], none, 0⟩).1 =
          some 9 ∧
        (9 ≠ 0 → cursorStep 3 (some 9) = max 9 3 ∧ (3 ≤ 9 → cursorStep 3 (some 9) = 9))) := by
  constructor
  · exact (process_message_cursor_discipline 1 (fun _ => (0 : ℚ)) (fun q => q)
      (fun s => s) 0 [(5, "hello".data)] []
      ⟨9, "hello".data, 1, [], [], none, 0⟩ 3 (by decide)).1
      (check_duplicate_exact_match 1 (fun _ => (0 : ℚ)) (fun q => q)
        (fun s => s) 0 [(5, "hello".data)] "hello".data "hello".data 5
        (le_refl 1) rfl (by decide) (by decide) rfl (by decide)
        (by simp only [dotAB_hello_eval, one_mul]) (by decide))
  · exact (process_message_cursor_discipline 1 (fun _ => (0 : ℚ)) (fun q => q)
      (fun s => s) 0 [] [⟨"xyz".data, 7⟩]
      ⟨9, "hello".data, 1, [], [], none, 0⟩ 3 (by decide)).2 (by decide)
      (by decide)

/-- C10. Every text handed to the message store by `process_message` is the
original message text, a proper prefix, followed by the anchor line with
the permalink and the chat title, and it carries a trailing attribution
line with the author's handle exactly when the author has a public
username (Python truthiness: a present, non-empty username). -/
theorem persisted_text_structure (θ : ℚ) (lg sq : ℚ → ℚ)
    (htmlText : Str → Str) (yesterday : Int) (dbMsgs : List (Int × Str))
    (kws : List Keyword) (m : Msg) (t : Str) (d : Nat) (c : Finset Int)
    (uid : Option Int) (un : Option Str) (cid : Int) (lk : Str)
    (h : Eff.saveMessage t d c uid un cid lk ∈
      (process_message θ lg sq htmlText yesterday dbMsgs kws m).2) :
    t = m.text ++
        ("\n\n<a href=\"".data ++ m.link ++ "\">Переслано из ".data ++
          m.chat_title ++ "</a>".data ++
          (if hasPublicUsername m then "\n\n👉 @".data ++ usernameStr m
            else [])) ∧
      m.text ≠ t ∧
      (hasPublicUsername m = true →
        ∃ pre, t = pre ++ ("\n\n👉 @".data ++ usernameStr m)) ∧
      (hasPublicUsername m = false →
        t = m.text ++ "\n\n<a href=\"".data ++ m.link ++
          "\">Переслано из ".data ++ m.chat_title ++ "</a>".data) := by
  have ht : t = get_text_with_link m := by
    unfold process_message at h
    split_ifs at h with h1 h2 h3 h4
    · exact absurd h (List.not_mem_nil _)
    · exact absurd h (List.not_mem_nil _)
    · exact absurd h (List.not_mem_nil _)
    · exact absurd h (List.not_mem_nil _)
    · have h5 := List.mem_singleton.mp h
      exact ((Eff.saveMessage.injEq _ _ _ _ _ _ _ _ _ _ _ _ _ _).mp h5).1
  have hstruct : t = m.text ++
      ("\n\n<a href=\"".data ++ m.link ++ "\">Переслано из ".data ++
        m.chat_title ++ "</a>".data ++
        (if hasPublicUsername m then "\n\n👉 @".data ++ usernameStr m
          else [])) := by
    rw [ht]
    unfold get_text_with_link
    by_cases hu : hasPublicUsername m
    · simp [hu, List.append_assoc]
    · simp [hu, List.append_assoc]
  refine ⟨hstruct, ?_, ?_, ?_⟩
  · intro he
    have h0 : ("\n\n<a href=\"".data ++ m.link ++ "\">Переслано из ".data ++
        m.chat_title ++ "</a>".data ++
        (if hasPublicUsername m then "\n\n👉 @".data ++ usernameStr m
          else [])) = ([] : Str) :=
      List.append_right_eq_self.mp (he.trans hstruct).symm
    simp only [List.append_eq_nil] at h0
    have : ("\n\n<a href=\"".data : Str) = [] := h0.1.1.1.1.1
    exact absurd this (by decide)
  · intro hu
    refine ⟨m.text ++ "\n\n<a href=\"".data ++ m.link ++
      "\">Переслано из ".data ++ m.chat_title ++ "</a>".data, ?_⟩
    rw [hstruct, hu]
    simp [List.append_assoc]
  · intro hu
    rw [hstruct, hu]
    simp [List.append_assoc]

/-- Witness for C10: a concrete saved message's stored text decomposes into
the original text, the anchor line, and the attribution line for the
author `bob`. -/
theorem persisted_text_structure_witness :
    ("hello".data : Str) ≠
        "hello\n\n<a href=\"L\">Переслано из T</a>\n\n👉 @bob".data ∧
      ∃ pre, ("hello\n\n<a href=\"L\">Переслано из T</a>\n\n👉 @bob".data : Str) =
        pre ++ ("\n\n👉 @".data ++ "bob".data) := by
  have h := persisted_text_structure 1 (fun _ => (0 : ℚ)) (fun q => q)
    (fun s => s) 0 [] [⟨"hello".data, 7⟩]
    ⟨5, "hello".data, 77, "T".data, "L".data, some ⟨1, some "bob".data⟩, 99⟩
    "hello\n\n<a href=\"L\">Переслано из T</a>\n\n👉 @bob".data 99 {7} (some 1)
    (some "bob".data) 77 "L".data (by decide)
  exact ⟨h.2.1, h.2.2.1 (by decide)⟩

/-! ### Effects of one poll (supporting lemmas for C1 and C2) -/

/-- The shape invariant of every effect `process_chat` can emit while its
in-memory row has id `tid` and (untouched) stored cursor `lm`: no cursor
write-back at all, and every row merge carries the id `tid` and the
unchanged cursor `lm`. -/
def effOk (tid : Str) (lm : Option Nat) : Eff → Prop
  | .updateLastCheck _ _ _ => False
  | .mergeLink snap => snap.id = tid ∧ snap.last_message_id = lm
  | _ => True

/-- `save_chat_id` never changes the row's `id` or `last_message_id`. -/
theorem save_chat_id_link_fields (tl : TelegramLink) (cid : Int)
    (session : Option Str) :
    ((save_chat_id tl cid session).1).id = tl.id ∧
      ((save_chat_id tl cid session).1).last_message_id = tl.last_message_id := by
  unfold save_chat_id
  split_ifs with h1
  · exact ⟨rfl, rfl⟩
  · exact ⟨rfl, rfl⟩

/-- The per-iteration row update never changes `id` or `last_message_id`. -/
theorem stepLink_link_fields (now : Nat) (tl : TelegramLink) (o : Option Nat) :
    (stepLink now tl o).id = tl.id ∧
      (stepLink now tl o).last_message_id = tl.last_message_id := by
  cases o with
  | none => exact ⟨rfl, rfl⟩
  | some i =>
    by_cases h2 : i = 0
    · simp [stepLink, h2]
    · simp [stepLink, h2]

/-- One loop iteration never changes the in-memory row's `id` or
`last_message_id`. -/
theorem chatStep_link_fields (θ : ℚ) (lg sq : ℚ → ℚ) (htmlText : Str → Str)
    (yesterday : Int) (dbMsgs : List (Int × Str)) (kws : List Keyword)
    (session : Str) (now : Nat) (st : Nat × TelegramLink × List Eff) (m : Msg) :
    ((chatStep θ lg sq htmlText yesterday dbMsgs kws session now st m).2.1).id =
        st.2.1.id ∧
      ((chatStep θ lg sq htmlText yesterday dbMsgs kws session now
            st m).2.1).last_message_id =
        st.2.1.last_message_id := by
  have hst := stepLink_link_fields now (save_chat_id st.2.1 m.chat_id
    (some session)).1 (process_message θ lg sq htmlText yesterday dbMsgs kws m).1
  have hsc := save_chat_id_link_fields st.2.1 m.chat_id (some session)
  exact ⟨hst.1.trans hsc.1, hst.2.trans hsc.2⟩

/-- One loop iteration never decreases the in-memory cursor. -/
theorem chatStep_cursor_mono (θ : ℚ) (lg sq : ℚ → ℚ) (htmlText : Str → Str)
    (yesterday : Int) (dbMsgs : List (Int × Str)) (kws : List Keyword)
    (session : Str) (now : Nat) (st : Nat × TelegramLink × List Eff) (m : Msg) :
    st.1 ≤ (chatStep θ lg sq htmlText yesterday dbMsgs kws session now st m).1 := by
  show st.1 ≤ cursorStep st.1 (process_message θ lg sq htmlText yesterday dbMsgs
    kws m).1
  cases (process_message θ lg sq htmlText yesterday dbMsgs kws m).1 with
  | none => exact le_refl _
  | some i =>
    by_cases h2 : i = 0
    · simp [cursorStep, h2]
    · simp [cursorStep, h2, Nat.le_max_right]

/-- The whole message loop never decreases the in-memory cursor. -/
theorem chatLoop_cursor_mono (θ : ℚ) (lg sq : ℚ → ℚ) (htmlText : Str → Str)
    (yesterday : Int) (dbMsgs : List (Int × Str)) (kws : List Keyword)
    (session : Str) (now : Nat) (msgs : List Msg) :
    ∀ st : Nat × TelegramLink × List Eff,
      st.1 ≤ (msgs.foldl
        (chatStep θ lg sq htmlText yesterday dbMsgs kws session now) st).1 := by
  induction msgs with
  | nil => intro st; exact le_refl _
  | cons m rest ih =>
    intro st
    exact le_trans
      (chatStep_cursor_mono θ lg sq htmlText yesterday dbMsgs kws session now
        st m)
      (ih (chatStep θ lg sq htmlText yesterday dbMsgs kws session now st m))

/-- One loop iteration emits only well-shaped effects. -/
theorem chatStep_effOk (θ : ℚ) (lg sq : ℚ → ℚ) (htmlText : Str → Str)
    (yesterday : Int) (dbMsgs : List (Int × Str)) (kws : List Keyword)
    (session : Str) (now : Nat) (st : Nat × TelegramLink × List Eff) (m : Msg)
    (tid : Str) (lm : Option Nat) (hid : st.2.1.id = tid)
    (hlm : st.2.1.last_message_id = lm)
    (hok : ∀ e ∈ st.2.2, effOk tid lm e) :
    ∀ e ∈ (chatStep θ lg sq htmlText yesterday dbMsgs kws session now
        st m).2.2, effOk tid lm e := by
  intro e he
  have hsc : ∀ e' ∈ (save_chat_id st.2.1 m.chat_id (some session)).2,
      effOk tid lm e' := by
    intro e' he'
    unfold save_chat_id at he'
    split_ifs at he' with h1
    · exact absurd he' (List.not_mem_nil _)
    · have h5 := List.mem_singleton.mp he'
      subst h5
      exact ⟨hid, hlm⟩
  have hpm : ∀ e' ∈ (process_message θ lg sq htmlText yesterday dbMsgs kws m).2,
      effOk tid lm e' := by
    intro e' he'
    unfold process_message at he'
    split_ifs at he'
    · exact absurd he' (List.not_mem_nil _)
    · exact absurd he' (List.not_mem_nil _)
    · exact absurd he' (List.not_mem_nil _)
    · exact absurd he' (List.not_mem_nil _)
    · have h5 := List.mem_singleton.mp he'
      subst h5
      trivial
  have he2 : e ∈ st.2.2 ++ (save_chat_id st.2.1 m.chat_id (some session)).2 ++
      (process_message θ lg sq htmlText yesterday dbMsgs kws m).2 := he
  simp only [List.append_assoc, List.mem_append] at he2
  rcases he2 with h | h | h
  · exact hok e h
  · exact hsc e h
  · exact hpm e h

/-- The whole message loop emits only well-shaped effects. -/
theorem chatLoop_effOk (θ : ℚ) (lg sq : ℚ → ℚ) (htmlText : Str → Str)
    (yesterday : Int) (dbMsgs : List (Int × Str)) (kws : List Keyword)
    (session : Str) (now : Nat) (msgs : List Msg) :
    ∀ st : Nat × TelegramLink × List Eff, ∀ tid lm, st.2.1.id = tid →
      st.2.1.last_message_id = lm → (∀ e ∈ st.2.2, effOk tid lm e) →
      ∀ e ∈ (msgs.foldl
        (chatStep θ lg sq htmlText yesterday dbMsgs kws session now) st).2.2,
        effOk tid lm e := by
  induction msgs with
  | nil => intro st tid lm _ _ hok; exact hok
  | cons m rest ih =>
    intro st tid lm hid hlm hok
    have hf := chatStep_link_fields θ lg sq htmlText yesterday dbMsgs kws
      session now st m
    exact ih (chatStep θ lg sq htmlText yesterday dbMsgs kws session now st m)
      tid lm (hf.1.trans hid) (hf.2.trans hlm)
      (chatStep_effOk θ lg sq htmlText yesterday dbMsgs kws session now st m
        tid lm hid hlm hok)

/-- The `finally` clause emits nothing: the write-back coroutine is built but
never awaited. -/
theorem finallyClause_nil (tl : TelegramLink) (checkedAt maxId : Nat) :
    finallyClause tl checkedAt maxId = [] := rfl

/-- `finishLoop` reports the loop's final cursor as the value handed to the
(unawaited) write-back call. -/
theorem finishLoop_finalCursor (st : Nat × TelegramLink × List Eff)
    (ending : PollEnd) (now : Nat) :
    (finishLoop st ending now).finalCursor = some st.1 := rfl

/-- Every `process_chat` run takes one of three shapes: exit before the `try`
block, an aborted poll, or the message loop wrapped by `finishLoop`
starting from no effects or a single join effect. -/
theorem process_chat_cases (θ : ℚ) (lg sq : ℚ → ℚ) (htmlText : Str → Str)
    (yesterday : Int) (dbMsgs : List (Int × Str)) (kws : List Keyword)
    (session : Str) (now : Nat) (tl : TelegramLink) (gc : GetChatResult)
    (joinRaises : Bool) (msgs : List Msg) (ending : PollEnd) :
    process_chat θ lg sq htmlText yesterday dbMsgs kws session now tl gc
        joinRaises msgs ending = ⟨tl, none, []⟩ ∨
      process_chat θ lg sq htmlText yesterday dbMsgs kws session now tl gc
          joinRaises msgs ending = abortPoll tl now ∨
      ∃ initEffs : List Eff,
        (initEffs = [] ∨ ∃ l, initEffs = [Eff.joinChat l]) ∧
          process_chat θ lg sq htmlText yesterday dbMsgs kws session now tl gc
              joinRaises msgs ending =
            pollLoop θ lg sq htmlText yesterday dbMsgs kws session now tl msgs
              ending initEffs := by
  unfold process_chat
  cases extract_chat tl with
  | none => exact Or.inl rfl
  | some chat =>
    dsimp only
    by_cases htr : chatTruthy chat = false
    · rw [if_pos htr]
      exact Or.inl rfl
    · rw [if_neg htr]
      cases gc with
      | permErr => exact Or.inr (Or.inl rfl)
      | badReq => exact Or.inr (Or.inl rfl)
      | raised => exact Or.inr (Or.inl rfl)
      | ok typ accessible =>
        dsimp only
        by_cases hres : isRestricted typ accessible = true
        · rw [if_pos hres]
          cases tl.link with
          | none => exact Or.inr (Or.inl rfl)
          | some l =>
            dsimp only
            by_cases hpre : tmePlus.isPrefixOf l = true
            · rw [if_pos hpre]
              by_cases hj : joinRaises = true
              · rw [if_pos hj]
                exact Or.inr (Or.inl rfl)
              · rw [if_neg hj]
                exact Or.inr (Or.inr ⟨[Eff.joinChat l], Or.inr ⟨l, rfl⟩, rfl⟩)
            · rw [if_neg hpre]
              exact Or.inr (Or.inl rfl)
        · rw [if_neg hres]
          exact Or.inr (Or.inr ⟨[], Or.inl rfl, rfl⟩)

/-- Every effect a poll emits is well-shaped: no cursor write-back at all, and
every row merge carries the poll's row id and its untouched stored
cursor. -/
theorem process_chat_effOk (θ : ℚ) (lg sq : ℚ → ℚ) (htmlText : Str → Str)
    (yesterday : Int) (dbMsgs : List (Int × Str)) (kws : List Keyword)
    (session : Str) (now : Nat) (tl : TelegramLink) (gc : GetChatResult)
    (joinRaises : Bool) (msgs : List Msg) (ending : PollEnd) :
    ∀ e ∈ (process_chat θ lg sq htmlText yesterday dbMsgs kws session now tl gc
        joinRaises msgs ending).effs, effOk tl.id tl.last_message_id e := by
  intro e he
  rcases process_chat_cases θ lg sq htmlText yesterday dbMsgs kws session now tl
    gc joinRaises msgs ending with h | h | ⟨initEffs, hinit, h⟩
  · rw [h] at he
    exact absurd he (List.not_mem_nil _)
  · rw [h] at he
    exact absurd he (List.not_mem_nil _)
  · rw [h] at he
    unfold pollLoop finishLoop at he
    have hfold := chatLoop_effOk θ lg sq htmlText yesterday dbMsgs kws session
      now (msgs.take MAX_MESSAGES_PER_CHAT)
      (tl.last_message_id.getD 0, tl, initEffs) tl.id tl.last_message_id rfl
      rfl
      (by
        intro e' he'
        rcases hinit with rfl | ⟨l, rfl⟩
        · exact absurd he' (List.not_mem_nil _)
        · have h5 := List.mem_singleton.mp he'
          subst h5
          trivial)
    cases ending with
    | flood n =>
      simp only [finallyClause_nil, List.append_nil, List.mem_append] at he
      rcases he with h1 | h1
      · exact hfold e h1
      · have h5 : e = Eff.sleep n := by simpa using h1
        subst h5
        trivial
    | normal =>
      simp only [finallyClause_nil, List.append_nil] at he
      exact hfold e he
    | errored =>
      simp only [finallyClause_nil, List.append_nil] at he
      exact hfold e he



/-- Applying one well-shaped effect leaves every stored row's
`last_message_id` unchanged, and preserves the agreement between the rows
with the poll's id and the in-memory cursor. -/
theorem applyEff_cursor_map (db : DB) (e : Eff) (tid : Str) (lm : Option Nat)
    (hok : effOk tid lm e)
    (hdb : ∀ l ∈ db.links, l.id = tid → l.last_message_id = lm) :
    ((applyEff db e).links.map (fun l => l.last_message_id) =
        db.links.map (fun l => l.last_message_id)) ∧
      ∀ l ∈ (applyEff db e).links, l.id = tid → l.last_message_id = lm := by
  cases e with
  | mergeLink snap =>
    rcases hok with ⟨hid, hlm⟩
    constructor
    · show (db.links.map (fun l => if l.id = snap.id then snap else l)).map
          (fun l => l.last_message_id) =
        db.links.map (fun l => l.last_message_id)
      rw [List.map_map]
      apply List.map_congr_left
      intro x hx
      by_cases hxe : x.id = snap.id
      · have hx2 : x.last_message_id = lm := hdb x hx (hxe.trans hid)
        simp [Function.comp, hxe, hlm, hx2]
      · simp [Function.comp, hxe]
    · intro l hl htid
      rcases List.mem_map.mp hl with ⟨x, hx, rfl⟩
      by_cases hxe : x.id = snap.id
      · simp [hxe, hlm]
      · simp only [hxe, if_false]
        exact hdb x hx (by simpa [hxe] using htid)
  | saveMessage t d c uid un cid lk => exact ⟨rfl, hdb⟩
  | updateLastCheck lid ca mi => exact hok.elim
  | joinChat l => exact ⟨rfl, hdb⟩
  | sleep n => exact ⟨rfl, hdb⟩

/-- Applying any list of well-shaped effects leaves every stored row's
`last_message_id` unchanged. -/
theorem applyEffs_cursor_map (effs : List Eff) :
    ∀ (db : DB) (tid : Str) (lm : Option Nat),
      (∀ e ∈ effs, effOk tid lm e) →
      (∀ l ∈ db.links, l.id = tid → l.last_message_id = lm) →
      ((applyEffs db effs).links.map (fun l => l.last_message_id) =
          db.links.map (fun l => l.last_message_id)) ∧
        ∀ l ∈ (applyEffs db effs).links, l.id = tid → l.last_message_id = lm := by
  induction effs with
  | nil => intro db tid lm _ hdb; exact ⟨rfl, hdb⟩
  | cons e rest ih =>
    intro db tid lm hok hdb
    have h1 := applyEff_cursor_map db e tid lm (hok e (List.mem_cons_self e rest))
      hdb
    have h2 := ih (applyEff db e) tid lm
      (fun e' he' => hok e' (List.mem_cons_of_mem e he')) h1.2
    exact ⟨h2.1.trans h1.1, h2.2⟩

/-- C1, the divergence. The `finally` clause of `process_chat` (main.py:226)
calls the `async def` `update_telegram_link_last_check` without `await`:
the coroutine is built and discarded, so NO exit path of `process_chat` —
normal completion, rate-limit signal, or any other error — ever persists
the advanced cursor or the updated poll timestamp. Formally: a poll's
effects never contain a cursor write-back, and applying them to any
database consistent with the in-memory row leaves every stored
`last_message_id` exactly as it was, however many messages were fetched,
deduplicated, categorized and saved. -/
theorem cursor_write_back_never_persisted (θ : ℚ) (lg sq : ℚ → ℚ)
    (htmlText : Str → Str) (yesterday : Int) (dbMsgs : List (Int × Str))
    (kws : List Keyword) (session : Str) (now : Nat) (tl : TelegramLink)
    (gc : GetChatResult) (joinRaises : Bool) (msgs : List Msg)
    (ending : PollEnd) (db : DB)
    (hdb : ∀ l ∈ db.links, l.id = tl.id →
      l.last_message_id = tl.last_message_id) :
    ((applyEffs db (process_chat θ lg sq htmlText yesterday dbMsgs kws session
          now tl gc joinRaises msgs ending).effs).links.map
        (fun l => l.last_message_id) =
      db.links.map (fun l => l.last_message_id)) ∧
      ∀ lid ca mi, Eff.updateLastCheck lid ca mi ∉
        (process_chat θ lg sq htmlText yesterday dbMsgs kws session now tl gc
          joinRaises msgs ending).effs := by
  have hok := process_chat_effOk θ lg sq htmlText yesterday dbMsgs kws session
    now tl gc joinRaises msgs ending
  constructor
  · exact (applyEffs_cursor_map _ db tl.id tl.last_message_id hok hdb).1
  · intro lid ca mi hmem
    exact hok _ hmem

/-- Witness for C1, at the failing input: a source with stored cursor 4 polls
one fresh message with id 9, which is fetched, categorized and saved —
the poll's only database effect is that message insert, the value 9 sits
at the (unawaited) write-back call, and the stored cursor is still 4
after the poll. -/
theorem cursor_write_back_never_persisted_witness :
    ((applyEffs
          ⟨[⟨"x".data, some "t.me/chan".data, some 77, none, some 4, none,
            none⟩], []⟩
          (process_chat 1 (fun _ => (0 : ℚ)) (fun q => q) (fun s => s) 0 []
            [⟨"hello".data, 7⟩] "s".data 111
            ⟨"x".data, some "t.me/chan".data, some 77, none, some 4, none,
              none⟩
            (.ok "group".data true) false
            [⟨9, "hello".data, 77, "T".data, "L".data, none, 99⟩]
            .normal).effs).links.map (fun l => l.last_message_id) =
        [some 4]) ∧
      (∀ lid ca mi, Eff.updateLastCheck lid ca mi ∉
        (process_chat 1 (fun _ => (0 : ℚ)) (fun q => q) (fun s => s) 0 []
          [⟨"hello".data, 7⟩] "s".data 111
          ⟨"x".data, some "t.me/chan".data, some 77, none, some 4, none, none⟩
          (.ok "group".data true) false
          [⟨9, "hello".data, 77, "T".data, "L".data, none, 99⟩]
          .normal).effs) ∧
      (process_chat 1 (fun _ => (0 : ℚ)) (fun q => q) (fun s => s) 0 []
          [⟨"hello".data, 7⟩] "s".data 111
          ⟨"x".data, some "t.me/chan".data, some 77, none, some 4, none, none⟩
          (.ok "group".data true) false
          [⟨9, "hello".data, 77, "T".data, "L".data, none, 99⟩]
          .normal).effs =
        [Eff.saveMessage "hello\n\n<a href=\"L\">Переслано из T</a>".data 99
          {7} none none 77 "L".data] ∧
      (process_chat 1 (fun _ => (0 : ℚ)) (fun q => q) (fun s => s) 0 []
          [⟨"hello".data, 7⟩] "s".data 111
          ⟨"x".data, some "t.me/chan".data, some 77, none, some 4, none, none⟩
          (.ok "group".data true) false
          [⟨9, "hello".data, 77, "T".data, "L".data, none, 99⟩]
          .normal).finalCursor = some 9 := by
  have h := cursor_write_back_never_persisted 1 (fun _ => (0 : ℚ)) (fun q => q)
    (fun s => s) 0 [] [⟨"hello".data, 7⟩] "s".data 111
    ⟨"x".data, some "t.me/chan".data, some 77, none, some 4, none, none⟩
    (.ok "group".data true) false
    [⟨9, "hello".data, 77, "T".data, "L".data, none, 99⟩] .normal
    ⟨[⟨"x".data, some "t.me/chan".data, some 77, none, some 4, none, none⟩],
      []⟩ (by decide)
  exact ⟨h.1, h.2, by decide, by decide⟩

/-- C2, counterexample. The claim says the write-back stores the accumulated
maximum. At a concrete poll of a source with stored cursor 4 that
accepts a fresh message with id 9, the maximum sitting at the write-back
call is 9 — yet applying the poll's effects to the store leaves the
persisted cursor at 4: the write-back never executes (the missing
`await` of C1), so the maximum is not stored. -/
theorem poll_max_never_stored_counterexample :
    (process_chat 1 (fun _ => (0 : ℚ)) (fun q => q) (fun s => s) 0 []
        [⟨"hello".data, 7⟩] "s".data 111
        ⟨"x".data, some "t.me/chan".data, some 77, none, some 4, none, none⟩
        (.ok "group".data true) false
        [⟨9, "hello".data, 77, "T".data, "L".data, none, 99⟩]
        .normal).finalCursor = some 9 ∧
      (applyEffs
          ⟨[⟨"x".data, some "t.me/chan".data, some 77, none, some 4, none,
            none⟩], []⟩
          (process_chat 1 (fun _ => (0 : ℚ)) (fun q => q) (fun s => s) 0 []
            [⟨"hello".data, 7⟩] "s".data 111
            ⟨"x".data, some "t.me/chan".data, some 77, none, some 4, none,
              none⟩
            (.ok "group".data true) false
            [⟨9, "hello".data, 77, "T".data, "L".data, none, 99⟩]
            .normal).effs).links.map (fun l => l.last_message_id) =
        [some 4] := by
  exact ⟨by decide, by decide⟩

/-- C2, amended. The in-memory cursor starts at the stored value (0 when
null) and is only ever replaced by `max(new id, current)`, so the
`max_id` value that reaches the write-back call in the `finally` clause
is at least the cursor stored before the poll; but the write-back
coroutine is never awaited (the missing `await` of C1), so the
accumulated maximum is never stored and the persisted cursor is simply
unchanged — hence, trivially, it never regresses across polls. -/
theorem poll_cursor_monotone_and_unpersisted (θ : ℚ) (lg sq : ℚ → ℚ)
    (htmlText : Str → Str) (yesterday : Int) (dbMsgs : List (Int × Str))
    (kws : List Keyword) (session : Str) (now : Nat) (tl : TelegramLink)
    (gc : GetChatResult) (joinRaises : Bool) (msgs : List Msg)
    (ending : PollEnd) (db : DB)
    (hdb : ∀ l ∈ db.links, l.id = tl.id →
      l.last_message_id = tl.last_message_id) :
    (∀ c, (process_chat θ lg sq htmlText yesterday dbMsgs kws session now tl gc
        joinRaises msgs ending).finalCursor = some c →
      tl.last_message_id.getD 0 ≤ c) ∧
      (applyEffs db (process_chat θ lg sq htmlText yesterday dbMsgs kws session
          now tl gc joinRaises msgs ending).effs).links.map
        (fun l => l.last_message_id) =
      db.links.map (fun l => l.last_message_id) := by
  constructor
  · intro c hc
    rcases process_chat_cases θ lg sq htmlText yesterday dbMsgs kws session now
      tl gc joinRaises msgs ending with h | h | ⟨initEffs, -, h⟩
    · rw [h] at hc
      simp at hc
    · rw [h] at hc
      have h2 : tl.last_message_id.getD 0 = c := by
        simpa [abortPoll] using hc
      exact le_of_eq h2
    · rw [h] at hc
      unfold pollLoop at hc
      rw [finishLoop_finalCursor] at hc
      have hmono := chatLoop_cursor_mono θ lg sq htmlText yesterday dbMsgs kws
        session now (msgs.take MAX_MESSAGES_PER_CHAT)
        (tl.last_message_id.getD 0, tl, initEffs)
      have hceq : ((msgs.take MAX_MESSAGES_PER_CHAT).foldl
          (chatStep θ lg sq htmlText yesterday dbMsgs kws session now)
          (tl.last_message_id.getD 0, tl, initEffs)).1 = c := by
        simpa using hc
      rw [← hceq]
      exact hmono
  · exact (applyEffs_cursor_map _ db tl.id tl.last_message_id
      (process_chat_effOk θ lg sq htmlText yesterday dbMsgs kws session now tl
        gc joinRaises msgs ending) hdb).1

/-- Witness for C2's amended theorem: a poll of a source with stored cursor 4
that accepts a message with id 9 hands the (unawaited) write-back the
value 9 ≥ 4, and the stored cursor map is unchanged. -/
theorem poll_cursor_monotone_and_unpersisted_witness :
    (some 4 : Option Nat).getD 0 ≤ 9 ∧
      (applyEffs
          ⟨[⟨"y".data, some "t.me/chan".data, some 77, none, some 4, none,
            none⟩], []⟩
          (process_chat 1 (fun _ => (0 : ℚ)) (fun q => q) (fun s => s) 0 []
            [⟨"hello".data, 7⟩] "s".data 111
            ⟨"y".data, some "t.me/chan".data, some 77, none, some 4, none,
              none⟩
            (.ok "group".data true) false
            [⟨9, "hello".data, 77, "T".data, "L".data, none, 99⟩]
            .normal).effs).links.map (fun l => l.last_message_id) =
        ([⟨"y".data, some "t.me/chan".data, some 77, none, some 4, none,
          none⟩] : List TelegramLink).map (fun l => l.last_message_id) := by
  have h := poll_cursor_monotone_and_unpersisted 1 (fun _ => (0 : ℚ))
    (fun q => q) (fun s => s) 0 [] [⟨"hello".data, 7⟩] "s".data 111
    ⟨"y".data, some "t.me/chan".data, some 77, none, some 4, none, none⟩
    (.ok "group".data true) false
    [⟨9, "hello".data, 77, "T".data, "L".data, none, 99⟩] .normal
    ⟨[⟨"y".data, some "t.me/chan".data, some 77, none, some 4, none, none⟩],
      []⟩ (by decide)
  exact ⟨h.1 9 (by decide), h.2⟩

end TgBot
